import Mathlib

/-
Shallow embedding of the task-manager CLI in src/src/main.rs.

The program is an interactive menu loop over four handlers (add_task,
list_tasks, mark_task_completed, delete_task), each of which reads one line
of user input, validates it, issues at most one parameterized SQL statement
against a MySQL table `tasks`, and prints a human-readable outcome.

Embedding conventions:
- The external MySQL table is a list of rows plus the two store-assigned
  counters (auto-increment id, insert timestamp).  The four SQL statements
  from the source are pure functions on that state returning the new state
  and the rows_affected count.
- I/O is made explicit: each handler takes the line the program would read
  from stdin and returns the new store state, the list of printed lines, and
  the list of database statements it issued (so "no DB call" is checkable).
- A Rust panic (the .expect on the chrono conversion in list_tasks) is
  modelled as Option.none for the whole call: the process aborts and no
  result state exists.
-/

namespace TaskCli

/-- The Rust struct `Task` (src/src/main.rs lines 7-13): id is an i32,
description a string, completed a bool, created_at a naive timestamp.
Naive timestamps are modelled abstractly as natural numbers. -/
structure Task where
  id : Int
  description : String
  completed : Bool
  created_at : Nat
deriving DecidableEq, Repr

/-- The external MySQL table `tasks` together with its store-assigned
counters: `rows` is the table content, `nextId` the auto-increment id the
store will assign to the next inserted row, and `clock` the timestamp the
store will stamp on the next inserted row (timestamps assigned at insert
time, monotonically). -/
structure TaskDb where
  rows : List Task
  nextId : Int
  clock : Nat
deriving DecidableEq, Repr

/-- One parameterized statement issued against the store, as it appears in
the source: INSERT (line 74), SELECT ... ORDER BY (line 91), UPDATE (line
130), DELETE (line 160). -/
inductive DbOp where
  | insert (description : String)
  | selectOrdered
  | updateCompleted (id : Int)
  | delete (id : Int)
deriving DecidableEq, Repr

/-- Result of one handler invocation: the store state afterwards, the lines
printed to stdout, and the database statements issued. -/
structure HandlerResult where
  db : TaskDb
  output : List String
  ops : List DbOp
deriving DecidableEq, Repr

/-- The statement `INSERT INTO tasks (description) VALUES (?)`
(src/src/main.rs line 74).  The store assigns the id and the creation
timestamp (spec section 3) and reports one affected row. -/
def dbInsert (db : TaskDb) (description : String) : TaskDb × Nat :=
  ({ rows := db.rows ++ [⟨db.nextId, description, false, db.clock⟩],
     nextId := db.nextId + 1,
     clock := db.clock + 1 }, 1)

/-- The query `SELECT id, description, completed, created_at FROM tasks
ORDER BY created_at DESC` (src/src/main.rs line 91): the rows, sorted by
creation timestamp descending. -/
def dbListOrdered (db : TaskDb) : List Task :=
  List.insertionSort (fun a b => b.created_at ≤ a.created_at) db.rows

/-- The statement `UPDATE tasks SET completed = TRUE WHERE id = ?`
(src/src/main.rs line 130): sets completed on every row whose id matches.
Modelled from the spec for the part outside src/: section 4.1 fixes the
rows_affected convention of the store as "0 if no row has that id",
i.e. the count of matched rows. -/
def dbUpdateCompleted (db : TaskDb) (id : Int) : TaskDb × Nat :=
  ({ db with rows := db.rows.map (fun t => if t.id = id then { t with completed := true } else t) },
   (db.rows.filter (fun t => t.id == id)).length)

/-- The statement `DELETE FROM tasks WHERE id = ?` (src/src/main.rs line
160): removes every row whose id matches and reports how many it removed. -/
def dbDelete (db : TaskDb) (id : Int) : TaskDb × Nat :=
  ({ db with rows := db.rows.filter (fun t => t.id != id) },
   (db.rows.filter (fun t => t.id == id)).length)

/-- The chrono `LocalResult` of mapping a naive datetime into the local time
zone: no valid interpretation (DST gap), exactly one, or two (DST fold). -/
inductive LocalResult (α : Type) where
  | gap
  | single (t : α)
  | ambiguous (earlier later : α)
deriving DecidableEq, Repr

/-- chrono method `LocalResult::earliest`: the earlier candidate of an
ambiguous result, the unique candidate of a single result, nothing for a
gap. -/
def LocalResult.earliest {α : Type} : LocalResult α → Option α
  | .gap => Option.none
  | .single t => Option.some t
  | .ambiguous e _ => Option.some e

/-- Rust `str::trim`: the string with leading and trailing whitespace
removed, as an operation on the character list. -/
def rustTrim (s : String) : String :=
  ⟨((s.data.dropWhile Char.isWhitespace).reverse.dropWhile Char.isWhitespace).reverse⟩

/-- Rust `str::is_empty` on the trimmed slice: no characters remain. -/
def strIsEmpty (s : String) : Bool :=
  s.data.isEmpty

/-- Value of a string of ASCII decimal digits, accumulated left to right as
Rust `str::parse` does. -/
def digitsVal (cs : List Char) : Nat :=
  cs.foldl (fun acc c => 10 * acc + (c.toNat - 48)) 0

/-- Rust `str::parse` sign handling: an optional single leading + or -
determines the sign, the rest are the digit characters. -/
def splitSign (cs : List Char) : Int × List Char :=
  match cs with
  | [] => (1, [])
  | c :: rest =>
    if c = '+' then (1, rest)
    else if c = '-' then (-1, rest)
    else (1, c :: rest)

/-- Rust `str::parse` digit scanning: the value of a nonempty string of
ASCII decimal digits, if that is what the character list is. -/
def parseDigits (cs : List Char) : Option Nat :=
  if cs.isEmpty then Option.none
  else if cs.all Char.isDigit then Option.some (digitsVal cs)
  else Option.none

def i32Min : Int := -2147483648

def i32Max : Int := 2147483647

/-- Rust `str::parse::<i32>()` (src/src/main.rs lines 121 and 151): an
optional leading sign followed by one or more ASCII digits, whose value
fits in a 32-bit signed integer; anything else (empty input, stray
characters, overflow) is an error. -/
def parseI32 (s : String) : Option Int :=
  let sd := splitSign s.data
  match parseDigits sd.2 with
  | Option.none => Option.none
  | Option.some n =>
    let v : Int := sd.1 * (n : Int)
    if i32Min ≤ v ∧ v ≤ i32Max then Option.some v else Option.none

/-- A trimmed input line that is numeric: an optional sign followed by at
least one ASCII digit (the syntactic half of what `parseI32` accepts,
before the i32 range check). -/
def isNumericStr (s : String) : Bool :=
  !(splitSign s.data).2.isEmpty && (splitSign s.data).2.all Char.isDigit

/-- The integer value denoted by a numeric string (meaningful when
`isNumericStr` holds), with no range restriction. -/
def numericValue (s : String) : Int :=
  (splitSign s.data).1 * (digitsVal (splitSign s.data).2 : Int)

/-- add_task (src/src/main.rs lines 60-86): trim the line read from stdin;
if empty, print the rejection message and issue no statement; otherwise
issue the INSERT and report success or failure from rows_affected. -/
def addTask (db : TaskDb) (input : String) : HandlerResult :=
  let description := rustTrim input
  if strIsEmpty description then
    ⟨db, ["Task description cannot be empty."], []⟩
  else
    let r := dbInsert db description
    if r.2 > 0 then
      ⟨r.1, ["Task \x27" ++ description ++ "\x27 added successfully!"], [DbOp.insert description]⟩
    else
      ⟨r.1, ["Failed to add task."], [DbOp.insert description]⟩

/-- One task line printed by list_tasks (src/src/main.rs lines 101-108),
given the already-formatted local creation time. -/
def taskLine (t : Task) (timeStr : String) : String :=
  let status := if t.completed then "[COMPLETED]" else "[PENDING]"
  "ID: " ++ toString t.id ++ ", " ++ status ++ " Description: \x27" ++
    t.description ++ "\x27 (Created: " ++ timeStr ++ ")"

/-- The per-task body of the list_tasks loop (src/src/main.rs lines
100-109): convert the naive created_at with
`Local.from_local_datetime(..).earliest().expect(..)` and render the line;
`Option.none` is the panic of the .expect (DST gap).  The local zone is the
parameter `tz` and the chrono `%Y-%m-%d %H:%M:%S` formatter is the
parameter `fmt`. -/
def formatTask (tz : Nat → LocalResult Nat) (fmt : Nat → String) (t : Task) : Option String :=
  match (tz t.created_at).earliest with
  | Option.none => Option.none
  | Option.some loc => Option.some (taskLine t (fmt loc))

/-- list_tasks (src/src/main.rs lines 88-112): fetch all rows newest-first;
if there are none print "No tasks found.", otherwise print the header and
one line per task.  `Option.none` is the process abort when some row panics
in the conversion. -/
def listTasks (tz : Nat → LocalResult Nat) (fmt : Nat → String) (db : TaskDb) :
    Option HandlerResult :=
  let tasks := dbListOrdered db
  if tasks.isEmpty then
    Option.some ⟨db, ["No tasks found."], [DbOp.selectOrdered]⟩
  else
    match tasks.mapM (formatTask tz fmt) with
    | Option.none => Option.none
    | Option.some lines =>
      Option.some ⟨db, "\n--- Your Tasks ---" :: lines, [DbOp.selectOrdered]⟩

/-- mark_task_completed (src/src/main.rs lines 114-142): trim the line read
from stdin and parse it as an i32; on a parse error print the invalid-ID
message and issue no statement; otherwise issue the UPDATE and report
"marked as completed" or "no task found" from rows_affected. -/
def markTaskCompleted (db : TaskDb) (input : String) : HandlerResult :=
  match parseI32 (rustTrim input) with
  | Option.none => ⟨db, ["Invalid task ID. Please enter a number."], []⟩
  | Option.some taskId =>
    let r := dbUpdateCompleted db taskId
    if r.2 > 0 then
      ⟨r.1, ["Task with ID " ++ toString taskId ++ " marked as completed."],
        [DbOp.updateCompleted taskId]⟩
    else
      ⟨r.1, ["No task found with ID " ++ toString taskId ++ ". Nothing updated."],
        [DbOp.updateCompleted taskId]⟩

/-- delete_task (src/src/main.rs lines 144-172): same shape as
mark_task_completed, issuing the DELETE. -/
def deleteTask (db : TaskDb) (input : String) : HandlerResult :=
  match parseI32 (rustTrim input) with
  | Option.none => ⟨db, ["Invalid task ID. Please enter a number."], []⟩
  | Option.some taskId =>
    let r := dbDelete db taskId
    if r.2 > 0 then
      ⟨r.1, ["Task with ID " ++ toString taskId ++ " deleted successfully."],
        [DbOp.delete taskId]⟩
    else
      ⟨r.1, ["No task found with ID " ++ toString taskId ++ ". Nothing deleted."],
        [DbOp.delete taskId]⟩

/-- Outcome of one iteration of the menu loop: either loop again (cont) or
break out of the loop on choice 5 (done). -/
inductive StepOutcome where
  | cont (r : HandlerResult)
  | done (r : HandlerResult)
deriving DecidableEq, Repr

/-- One iteration of the main loop (src/src/main.rs lines 30-55): read the
menu choice line, trim it, and dispatch on the literal strings "1" to "5";
any other input prints the invalid-choice message and loops.  `choice` is
the menu line and `input` the further line the chosen handler would read.
`Option.none` is the process abort inside list_tasks. -/
def menuStep (tz : Nat → LocalResult Nat) (fmt : Nat → String)
    (db : TaskDb) (choice : String) (input : String) : Option StepOutcome :=
  match rustTrim choice with
  | "1" => Option.some (StepOutcome.cont (addTask db input))
  | "2" =>
    match listTasks tz fmt db with
    | Option.none => Option.none
    | Option.some r => Option.some (StepOutcome.cont r)
  | "3" => Option.some (StepOutcome.cont (markTaskCompleted db input))
  | "4" => Option.some (StepOutcome.cont (deleteTask db input))
  | "5" => Option.some (StepOutcome.done ⟨db, ["Exiting application. Goodbye!"], []⟩)
  | _ => Option.some (StepOutcome.cont ⟨db, ["Invalid choice. Please try again."], []⟩)

/-- One exposed operation of the CLI, with the user-input line it consumes. -/
inductive Cmd where
  | add (input : String)
  | list
  | complete (input : String)
  | delete (input : String)
deriving DecidableEq, Repr

/-- The store state after one exposed operation.  list_tasks never mutates
the store, so it is the identity on the state. -/
def runCmd (db : TaskDb) : Cmd → TaskDb
  | Cmd.add input => (addTask db input).db
  | Cmd.list => db
  | Cmd.complete input => (markTaskCompleted db input).db
  | Cmd.delete input => (deleteTask db input).db

/-- The store state after a sequence of exposed operations. -/
def runCmds (db : TaskDb) : List Cmd → TaskDb
  | [] => db
  | c :: cs => runCmds (runCmd db c) cs

/-- Store well-formedness (spec section 3): every id already assigned is
below the next auto-increment value, and ids are unique. -/
def WfDb (db : TaskDb) : Prop :=
  (∀ t ∈ db.rows, t.id < db.nextId) ∧ db.rows.Pairwise (fun a b => a.id ≠ b.id)

/-- Every row carrying the given id is completed. -/
def CompletedAt (db : TaskDb) (v : Int) : Prop :=
  ∀ t ∈ db.rows, t.id = v → t.completed = true

/-! ### Helper lemmas -/

theorem parseI32_eq_none_of_not_numeric (s : String) (h : isNumericStr s = false) :
    parseI32 s = Option.none := by
  unfold isNumericStr at h
  unfold parseI32 parseDigits
  by_cases he : (splitSign s.data).2.isEmpty = true
  · simp [he]
  · simp only [Bool.and_eq_false_iff, Bool.not_eq_false'] at h
    rcases h with h | h
    · exact absurd h he
    · simp [he, h]

theorem parseI32_eq_none_of_overflow (s : String) (h : isNumericStr s = true)
    (hr : numericValue s < i32Min ∨ i32Max < numericValue s) :
    parseI32 s = Option.none := by
  unfold isNumericStr at h
  unfold numericValue at hr
  unfold parseI32 parseDigits
  simp only [Bool.and_eq_true, Bool.not_eq_true'] at h
  simp only [h.1, h.2, Bool.false_eq_true, if_false, if_true]
  rw [if_neg]
  rintro ⟨h1, h2⟩
  rcases hr with hr | hr <;> omega

theorem mapM_eq_none_of_mem {α β : Type} (f : α → Option β) (l : List α) (x : α)
    (hx : x ∈ l) (hf : f x = Option.none) : l.mapM f = Option.none := by
  induction l with
  | nil => cases hx
  | cons a l ih =>
    rw [List.mapM_cons]
    rcases List.mem_cons.1 hx with h | h
    · subst h; rw [hf]; rfl
    · cases hfa : f a with
      | none => rfl
      | some b => rw [ih h]; rfl

theorem mem_of_mapM_eq_some {α β : Type} (f : α → Option β) (l : List α) (res : List β)
    (hl : l.mapM f = Option.some res) (x : α) (hx : x ∈ l) (y : β)
    (hy : f x = Option.some y) : y ∈ res := by
  induction l generalizing res with
  | nil => cases hx
  | cons a l ih =>
    rw [List.mapM_cons] at hl
    cases hfa : f a with
    | none => rw [hfa] at hl; exact absurd hl (by intro hc; cases hc)
    | some b =>
      rw [hfa] at hl
      cases hml : l.mapM f with
      | none => rw [hml] at hl; exact absurd hl (by intro hc; cases hc)
      | some bs =>
        rw [hml] at hl
        have hres : b :: bs = res := Option.some.inj hl
        subst hres
        rcases List.mem_cons.1 hx with h | h
        · subst h
          rw [hfa] at hy
          exact List.mem_cons.2 (Or.inl (Option.some.inj hy).symm)
        · exact List.mem_cons.2 (Or.inr (ih bs hml h))

theorem updateRow_id (v : Int) (t : Task) :
    (if t.id = v then { t with completed := true } else t).id = t.id := by
  split <;> rfl

theorem dbUpdateCompleted_rows (db : TaskDb) (v : Int) :
    (dbUpdateCompleted db v).1.rows =
      db.rows.map (fun t => if t.id = v then { t with completed := true } else t) := rfl

theorem dbUpdateCompleted_not_found (db : TaskDb) (v : Int)
    (h : ∀ t ∈ db.rows, t.id ≠ v) : dbUpdateCompleted db v = (db, 0) := by
  unfold dbUpdateCompleted
  have hmap : db.rows.map (fun t => if t.id = v then { t with completed := true } else t)
      = db.rows := by
    refine (List.map_congr_left ?_).trans (List.map_id db.rows)
    intro t ht
    rw [if_neg (h t ht)]
    rfl
  have hfil : db.rows.filter (fun t => t.id == v) = [] := by
    apply List.filter_eq_nil_iff.2
    intro t ht
    simp [h t ht]
  rw [hmap, hfil]
  rfl

theorem dbDelete_not_found (db : TaskDb) (v : Int)
    (h : ∀ t ∈ db.rows, t.id ≠ v) : dbDelete db v = (db, 0) := by
  unfold dbDelete
  have hfil : db.rows.filter (fun t => t.id != v) = db.rows := by
    apply List.filter_eq_self.2
    intro t ht
    simp [h t ht]
  have hfil0 : db.rows.filter (fun t => t.id == v) = [] := by
    apply List.filter_eq_nil_iff.2
    intro t ht
    simp [h t ht]
  rw [hfil, hfil0]
  rfl

theorem dbUpdateCompleted_found_pos (db : TaskDb) (v : Int)
    (h : ∃ t ∈ db.rows, t.id = v) : 0 < (dbUpdateCompleted db v).2 := by
  obtain ⟨t, ht, hid⟩ := h
  have : t ∈ db.rows.filter (fun t => t.id == v) :=
    List.mem_filter.2 ⟨ht, by simp [hid]⟩
  exact List.length_pos.2 (List.ne_nil_of_mem this)

theorem dbUpdateCompleted_sets (db : TaskDb) (v : Int) :
    ∀ t' ∈ (dbUpdateCompleted db v).1.rows, t'.id = v → t'.completed = true := by
  intro t' ht' hid
  rw [dbUpdateCompleted_rows] at ht'
  obtain ⟨t, ht, rfl⟩ := List.mem_map.1 ht'
  by_cases h : t.id = v
  · simp [h]
  · rw [if_neg h] at hid ⊢
    exact absurd hid h

theorem dbUpdateCompleted_count_stable (db : TaskDb) (v : Int) :
    (dbUpdateCompleted (dbUpdateCompleted db v).1 v).2 = (dbUpdateCompleted db v).2 := by
  show ((dbUpdateCompleted db v).1.rows.filter (fun t => t.id == v)).length
      = (db.rows.filter (fun t => t.id == v)).length
  rw [dbUpdateCompleted_rows, List.filter_map]
  rw [List.length_map]
  congr 1
  apply List.filter_congr
  intro t _
  simp [Function.comp, updateRow_id]

theorem dbUpdateCompleted_idem (db : TaskDb) (v : Int) :
    (dbUpdateCompleted (dbUpdateCompleted db v).1 v).1 = (dbUpdateCompleted db v).1 := by
  rcases db with ⟨rows, nid, ck⟩
  simp only [dbUpdateCompleted, List.map_map]
  congr 1
  apply List.map_congr_left
  intro t _
  by_cases h : t.id = v <;> simp [Function.comp, h]

theorem dbInsert_preserves (db : TaskDb) (d : String) (v : Int)
    (hlt : v < db.nextId) (hca : CompletedAt db v) :
    CompletedAt (dbInsert db d).1 v ∧ v < (dbInsert db d).1.nextId := by
  constructor
  · intro t ht hid
    rcases List.mem_append.1 ht with ht | ht
    · exact hca t ht hid
    · rcases List.mem_singleton.1 ht with rfl
      exfalso
      have hnv : db.nextId = v := hid
      omega
  · exact lt_trans hlt (lt_add_one _)

theorem dbUpdateCompleted_preserves (db : TaskDb) (w v : Int) (hca : CompletedAt db v) :
    CompletedAt (dbUpdateCompleted db w).1 v := by
  intro t' ht' hid
  rw [dbUpdateCompleted_rows] at ht'
  obtain ⟨t, ht, rfl⟩ := List.mem_map.1 ht'
  by_cases h : t.id = w
  · simp [h]
  · rw [if_neg h] at hid ⊢
    exact hca t ht hid

theorem dbDelete_preserves (db : TaskDb) (w v : Int) (hca : CompletedAt db v) :
    CompletedAt (dbDelete db w).1 v :=
  fun t ht hid => hca t (List.mem_of_mem_filter ht) hid

theorem addTask_db (db : TaskDb) (input : String) :
    (addTask db input).db =
      if strIsEmpty (rustTrim input) then db else (dbInsert db (rustTrim input)).1 := by
  by_cases h : strIsEmpty (rustTrim input) = true <;> simp [addTask, h, dbInsert]

theorem markTaskCompleted_db (db : TaskDb) (input : String) :
    (markTaskCompleted db input).db =
      match parseI32 (rustTrim input) with
      | Option.none => db
      | Option.some v => (dbUpdateCompleted db v).1 := by
  cases hp : parseI32 (rustTrim input) with
  | none => simp [markTaskCompleted, hp]
  | some v =>
    simp only [markTaskCompleted, hp]
    split <;> rfl

theorem deleteTask_db (db : TaskDb) (input : String) :
    (deleteTask db input).db =
      match parseI32 (rustTrim input) with
      | Option.none => db
      | Option.some v => (dbDelete db v).1 := by
  cases hp : parseI32 (rustTrim input) with
  | none => simp [deleteTask, hp]
  | some v =>
    simp only [deleteTask, hp]
    split <;> rfl

theorem runCmd_preserves (db : TaskDb) (c : Cmd) (v : Int)
    (hlt : v < db.nextId) (hca : CompletedAt db v) :
    CompletedAt (runCmd db c) v ∧ v < (runCmd db c).nextId := by
  cases c with
  | add input =>
    show CompletedAt (addTask db input).db v ∧ v < (addTask db input).db.nextId
    rw [addTask_db]
    split
    · exact ⟨hca, hlt⟩
    · exact dbInsert_preserves db (rustTrim input) v hlt hca
  | list => exact ⟨hca, hlt⟩
  | complete input =>
    show CompletedAt (markTaskCompleted db input).db v ∧
      v < (markTaskCompleted db input).db.nextId
    rw [markTaskCompleted_db]
    cases parseI32 (rustTrim input) with
    | none => exact ⟨hca, hlt⟩
    | some w => exact ⟨dbUpdateCompleted_preserves db w v hca, hlt⟩
  | delete input =>
    show CompletedAt (deleteTask db input).db v ∧ v < (deleteTask db input).db.nextId
    rw [deleteTask_db]
    cases parseI32 (rustTrim input) with
    | none => exact ⟨hca, hlt⟩
    | some w => exact ⟨dbDelete_preserves db w v hca, hlt⟩

theorem runCmds_preserves (cmds : List Cmd) (db : TaskDb) (v : Int)
    (hlt : v < db.nextId) (hca : CompletedAt db v) :
    CompletedAt (runCmds db cmds) v := by
  induction cmds generalizing db with
  | nil => exact hca
  | cons c cs ih =>
    have h := runCmd_preserves db c v hlt hca
    exact ih (runCmd db c) h.2 h.1

/-! ### Claim theorems -/

/-- C4: every description input that trims to empty (including "" and
whitespace-only strings) makes add_task print the empty-description message
and issue no statement; every input nonempty after trimming makes add_task
issue the INSERT with the trimmed description and report success. -/
theorem add_empty_rejected_nonempty_inserts (db : TaskDb) (input : String) :
    (strIsEmpty (rustTrim input) = true →
      addTask db input = ⟨db, ["Task description cannot be empty."], []⟩) ∧
    (strIsEmpty (rustTrim input) = false →
      addTask db input =
        ⟨(dbInsert db (rustTrim input)).1,
         ["Task \x27" ++ rustTrim input ++ "\x27 added successfully!"],
         [DbOp.insert (rustTrim input)]⟩) := by
  constructor <;> intro h <;> simp [addTask, h, dbInsert]

/-- Witness for C4 at the whitespace-only input "   " and at " hi ". -/
theorem add_empty_rejected_nonempty_inserts_witness :
    (strIsEmpty (rustTrim "   ") = true ∧
      addTask ⟨[], 1, 0⟩ "   " = ⟨⟨[], 1, 0⟩, ["Task description cannot be empty."], []⟩) ∧
    (strIsEmpty (rustTrim " hi ") = false ∧
      addTask ⟨[], 1, 0⟩ " hi " =
        ⟨(dbInsert ⟨[], 1, 0⟩ (rustTrim " hi ")).1,
         ["Task \x27" ++ rustTrim " hi " ++ "\x27 added successfully!"],
         [DbOp.insert (rustTrim " hi ")]⟩) :=
  ⟨⟨by decide, (add_empty_rejected_nonempty_inserts ⟨[], 1, 0⟩ "   ").1 (by decide)⟩,
   ⟨by decide, (add_empty_rejected_nonempty_inserts ⟨[], 1, 0⟩ " hi ").2 (by decide)⟩⟩

/-- C6: an ID input line whose trimmed content is not numeric makes both
mark_task_completed and delete_task print the invalid-ID message, issue no
database statement, and leave the store untouched. -/
theorem non_numeric_id_rejected_locally (db : TaskDb) (input : String)
    (h : isNumericStr (rustTrim input) = false) :
    markTaskCompleted db input = ⟨db, ["Invalid task ID. Please enter a number."], []⟩ ∧
    deleteTask db input = ⟨db, ["Invalid task ID. Please enter a number."], []⟩ := by
  have hp := parseI32_eq_none_of_not_numeric _ h
  exact ⟨by simp [markTaskCompleted, hp], by simp [deleteTask, hp]⟩

/-- Witness for C6 at the non-numeric input " abc ". -/
theorem non_numeric_id_rejected_locally_witness :
    isNumericStr (rustTrim " abc ") = false ∧
    markTaskCompleted ⟨[⟨1, "a", false, 0⟩], 2, 1⟩ " abc " =
      ⟨⟨[⟨1, "a", false, 0⟩], 2, 1⟩, ["Invalid task ID. Please enter a number."], []⟩ ∧
    deleteTask ⟨[⟨1, "a", false, 0⟩], 2, 1⟩ " abc " =
      ⟨⟨[⟨1, "a", false, 0⟩], 2, 1⟩, ["Invalid task ID. Please enter a number."], []⟩ :=
  ⟨by decide,
   (non_numeric_id_rejected_locally ⟨[⟨1, "a", false, 0⟩], 2, 1⟩ " abc " (by decide)).1,
   (non_numeric_id_rejected_locally ⟨[⟨1, "a", false, 0⟩], 2, 1⟩ " abc " (by decide)).2⟩

/-- C9: an ID input line whose trimmed content is numeric but denotes a
value outside the i32 range is rejected by both handlers with the same
invalid-ID message as non-numeric input, and no statement is issued. -/
theorem out_of_range_id_rejected_locally (db : TaskDb) (input : String)
    (hn : isNumericStr (rustTrim input) = true)
    (hr : numericValue (rustTrim input) < i32Min ∨ i32Max < numericValue (rustTrim input)) :
    markTaskCompleted db input = ⟨db, ["Invalid task ID. Please enter a number."], []⟩ ∧
    deleteTask db input = ⟨db, ["Invalid task ID. Please enter a number."], []⟩ := by
  have hp := parseI32_eq_none_of_overflow _ hn hr
  exact ⟨by simp [markTaskCompleted, hp], by simp [deleteTask, hp]⟩

/-- Witness for C9 at "2147483648" (one past i32Max) and "-2147483649"
(one past i32Min). -/
theorem out_of_range_id_rejected_locally_witness :
    (isNumericStr (rustTrim "2147483648") = true ∧
      i32Max < numericValue (rustTrim "2147483648") ∧
      markTaskCompleted ⟨[], 1, 0⟩ "2147483648" =
        ⟨⟨[], 1, 0⟩, ["Invalid task ID. Please enter a number."], []⟩) ∧
    (isNumericStr (rustTrim "-2147483649") = true ∧
      numericValue (rustTrim "-2147483649") < i32Min ∧
      deleteTask ⟨[], 1, 0⟩ "-2147483649" =
        ⟨⟨[], 1, 0⟩, ["Invalid task ID. Please enter a number."], []⟩) :=
  ⟨⟨by decide, by decide,
    (out_of_range_id_rejected_locally ⟨[], 1, 0⟩ "2147483648" (by decide)
      (Or.inr (by decide))).1⟩,
   ⟨by decide, by decide,
    (out_of_range_id_rejected_locally ⟨[], 1, 0⟩ "-2147483649" (by decide)
      (Or.inl (by decide))).2⟩⟩

/-- C10: an ID input line whose trimmed content parses as an i32 (zero and
negative values included) is accepted: mark_task_completed issues exactly
the UPDATE and delete_task exactly the DELETE for the parsed id, with no
positivity or range check beyond the i32 parse. -/
theorem i32_id_accepted_round_trip (db : TaskDb) (input : String) (v : Int)
    (h : parseI32 (rustTrim input) = Option.some v) :
    (markTaskCompleted db input).ops = [DbOp.updateCompleted v] ∧
    (markTaskCompleted db input).db = (dbUpdateCompleted db v).1 ∧
    (deleteTask db input).ops = [DbOp.delete v] ∧
    (deleteTask db input).db = (dbDelete db v).1 := by
  refine ⟨?_, ?_, ?_, ?_⟩ <;>
    simp only [markTaskCompleted, deleteTask, h] <;> split <;> rfl

/-- Witness for C10 at the inputs "0" and " -3 ". -/
theorem i32_id_accepted_round_trip_witness :
    parseI32 (rustTrim "0") = Option.some 0 ∧
    parseI32 (rustTrim " -3 ") = Option.some (-3) ∧
    (markTaskCompleted ⟨[], 1, 0⟩ "0").ops = [DbOp.updateCompleted 0] ∧
    (deleteTask ⟨[], 1, 0⟩ " -3 ").ops = [DbOp.delete (-3)] :=
  ⟨by decide, by decide,
   (i32_id_accepted_round_trip ⟨[], 1, 0⟩ "0" 0 (by decide)).1,
   (i32_id_accepted_round_trip ⟨[], 1, 0⟩ " -3 " (-3) (by decide)).2.2.1⟩

/-- C3: for an id absent from the store, update and delete report
rows_affected 0 and leave the store completely unchanged, and the handlers
print the not-found messages after issuing their single statement. -/
theorem complete_delete_not_found_unchanged (db : TaskDb) (input : String) (v : Int)
    (hp : parseI32 (rustTrim input) = Option.some v)
    (h : ∀ t ∈ db.rows, t.id ≠ v) :
    dbUpdateCompleted db v = (db, 0) ∧
    dbDelete db v = (db, 0) ∧
    markTaskCompleted db input =
      ⟨db, ["No task found with ID " ++ toString v ++ ". Nothing updated."],
        [DbOp.updateCompleted v]⟩ ∧
    deleteTask db input =
      ⟨db, ["No task found with ID " ++ toString v ++ ". Nothing deleted."],
        [DbOp.delete v]⟩ := by
  have hu := dbUpdateCompleted_not_found db v h
  have hd := dbDelete_not_found db v h
  refine ⟨hu, hd, ?_, ?_⟩
  · simp [markTaskCompleted, hp, hu]
  · simp [deleteTask, hp, hd]

/-- Witness for C3: id 2 is absent from a store holding only id 1. -/
theorem complete_delete_not_found_unchanged_witness :
    parseI32 (rustTrim "2") = Option.some 2 ∧
    (∀ t ∈ (⟨[⟨1, "a", false, 5⟩], 2, 6⟩ : TaskDb).rows, t.id ≠ 2) ∧
    dbUpdateCompleted ⟨[⟨1, "a", false, 5⟩], 2, 6⟩ 2 = (⟨[⟨1, "a", false, 5⟩], 2, 6⟩, 0) ∧
    markTaskCompleted ⟨[⟨1, "a", false, 5⟩], 2, 6⟩ "2" =
      ⟨⟨[⟨1, "a", false, 5⟩], 2, 6⟩,
       ["No task found with ID " ++ toString (2 : Int) ++ ". Nothing updated."],
       [DbOp.updateCompleted 2]⟩ :=
  ⟨by decide, by decide,
   (complete_delete_not_found_unchanged ⟨[⟨1, "a", false, 5⟩], 2, 6⟩ "2" 2
      (by decide) (by decide)).1,
   (complete_delete_not_found_unchanged ⟨[⟨1, "a", false, 5⟩], 2, 6⟩ "2" 2
      (by decide) (by decide)).2.2.1⟩

/-- C1: the per-task conversion in list_tasks resolves a DST-ambiguous
created_at to the earlier of the two candidates, the line List prints for
such a task uses that earlier candidate, and a task whose created_at falls
in a DST gap makes list_tasks abort instead of printing a guessed time. -/
theorem list_dst_fold_earlier_gap_aborts (tz : Nat → LocalResult Nat)
    (fmt : Nat → String) (db : TaskDb) (t : Task) (e l : Nat) :
    (tz t.created_at = LocalResult.ambiguous e l →
      formatTask tz fmt t = Option.some (taskLine t (fmt e))) ∧
    (t ∈ db.rows → tz t.created_at = LocalResult.ambiguous e l →
      ∀ r, listTasks tz fmt db = Option.some r → taskLine t (fmt e) ∈ r.output) ∧
    (t ∈ db.rows → tz t.created_at = LocalResult.gap →
      listTasks tz fmt db = Option.none) := by
  have hfmt : tz t.created_at = LocalResult.ambiguous e l →
      formatTask tz fmt t = Option.some (taskLine t (fmt e)) := by
    intro h
    simp [formatTask, h, LocalResult.earliest]
  refine ⟨hfmt, ?_, ?_⟩
  · intro ht hamb r hr
    have ht' : t ∈ dbListOrdered db :=
      (List.perm_insertionSort _ db.rows).mem_iff.2 ht
    unfold listTasks at hr
    cases hl : dbListOrdered db with
    | nil => rw [hl] at ht'; cases ht'
    | cons a as =>
      rw [hl] at hr
      simp only [List.isEmpty_cons, Bool.false_eq_true, if_false] at hr
      cases hm : (a :: as).mapM (formatTask tz fmt) with
      | none => rw [hm] at hr; cases hr
      | some lines =>
        rw [hm] at hr
        have hrr : r = ⟨db, "\n--- Your Tasks ---" :: lines, [DbOp.selectOrdered]⟩ :=
          (Option.some.inj hr).symm
        subst hrr
        have hy : taskLine t (fmt e) ∈ lines :=
          mem_of_mapM_eq_some (formatTask tz fmt) (a :: as) lines hm t
            (hl ▸ ht') (taskLine t (fmt e)) (hfmt hamb)
        exact List.mem_cons_of_mem _ hy
  · intro ht hgap
    have ht' : t ∈ dbListOrdered db :=
      (List.perm_insertionSort _ db.rows).mem_iff.2 ht
    have hnone : formatTask tz fmt t = Option.none := by
      simp [formatTask, hgap, LocalResult.earliest]
    unfold listTasks
    cases hl : dbListOrdered db with
    | nil => rw [hl] at ht'; cases ht'
    | cons a as =>
      simp only [List.isEmpty_cons, Bool.false_eq_true, if_false]
      rw [mapM_eq_none_of_mem (formatTask tz fmt) (a :: as) t (hl ▸ ht') hnone]

/-- Witness for C1: a store with one fold task (earlier candidate 7, later
9) is formatted with 7; a store with one gap task makes List abort. -/
theorem list_dst_fold_earlier_gap_aborts_witness :
    ((fun n => if n = 0 then LocalResult.ambiguous 7 9 else LocalResult.gap)
        ((⟨1, "a", false, 0⟩ : Task).created_at) = LocalResult.ambiguous 7 9 ∧
      formatTask (fun n => if n = 0 then LocalResult.ambiguous 7 9 else LocalResult.gap)
        (fun n => toString n) ⟨1, "a", false, 0⟩ =
        Option.some (taskLine ⟨1, "a", false, 0⟩ (toString (7 : Nat)))) ∧
    ((⟨2, "b", false, 1⟩ : Task) ∈ (⟨[⟨2, "b", false, 1⟩], 3, 2⟩ : TaskDb).rows ∧
      listTasks (fun n => if n = 0 then LocalResult.ambiguous 7 9 else LocalResult.gap)
        (fun n => toString n) ⟨[⟨2, "b", false, 1⟩], 3, 2⟩ = Option.none) :=
  ⟨⟨by decide,
    (list_dst_fold_earlier_gap_aborts
        (fun n => if n = 0 then LocalResult.ambiguous 7 9 else LocalResult.gap)
        (fun n => toString n) ⟨[⟨2, "b", false, 1⟩], 3, 2⟩ ⟨1, "a", false, 0⟩ 7 9).1
      (by decide)⟩,
   ⟨by decide,
    (list_dst_fold_earlier_gap_aborts
        (fun n => if n = 0 then LocalResult.ambiguous 7 9 else LocalResult.gap)
        (fun n => toString n) ⟨[⟨2, "b", false, 1⟩], 3, 2⟩ ⟨2, "b", false, 1⟩ 0 0).2.2
      (by decide) (by decide)⟩⟩

/-- C5: the sequence list_tasks receives is ordered by creation timestamp
descending (a permutation of the table rows, newest first); on an empty
table it is the empty sequence, the handler prints "No tasks found.", and
no per-task line is produced. -/
theorem list_newest_first_empty_no_tasks (tz : Nat → LocalResult Nat)
    (fmt : Nat → String) (db : TaskDb) :
    List.Sorted (fun a b : Task => b.created_at ≤ a.created_at) (dbListOrdered db) ∧
    List.Perm (dbListOrdered db) db.rows ∧
    (db.rows = [] →
      dbListOrdered db = [] ∧
      listTasks tz fmt db = Option.some ⟨db, ["No tasks found."], [DbOp.selectOrdered]⟩) := by
  haveI htot : IsTotal Task (fun a b : Task => b.created_at ≤ a.created_at) :=
    ⟨fun a b => Nat.le_total b.created_at a.created_at⟩
  haveI htr : IsTrans Task (fun a b : Task => b.created_at ≤ a.created_at) :=
    ⟨fun _ _ _ h1 h2 => Nat.le_trans h2 h1⟩
  refine ⟨List.sorted_insertionSort _ db.rows, List.perm_insertionSort _ db.rows, ?_⟩
  intro h
  have hnil : dbListOrdered db = [] := by
    unfold dbListOrdered
    rw [h]
    rfl
  refine ⟨hnil, ?_⟩
  unfold listTasks
  rw [hnil]
  rfl

/-- Witness for C5 at the empty store. -/
theorem list_newest_first_empty_no_tasks_witness :
    (⟨[], 1, 0⟩ : TaskDb).rows = [] ∧
    listTasks (fun _ => LocalResult.single 0) (fun _ => "") ⟨[], 1, 0⟩ =
      Option.some ⟨⟨[], 1, 0⟩, ["No tasks found."], [DbOp.selectOrdered]⟩ :=
  ⟨rfl,
   ((list_newest_first_empty_no_tasks (fun _ => LocalResult.single 0) (fun _ => "")
      ⟨[], 1, 0⟩).2.2 rfl).2⟩

/-- C7: a menu line whose trimmed content is none of the literals "1"
through "5" makes the loop iteration print the invalid-choice message,
issue no statement, keep the store unchanged and continue looping; a
normal loop exit happens only on choice "5". -/
theorem menu_invalid_choice_same_state (tz : Nat → LocalResult Nat)
    (fmt : Nat → String) (db : TaskDb) (choice input : String) :
    (rustTrim choice ∉ (["1", "2", "3", "4", "5"] : List String) →
      menuStep tz fmt db choice input =
        Option.some (StepOutcome.cont ⟨db, ["Invalid choice. Please try again."], []⟩)) ∧
    (∀ r, menuStep tz fmt db choice input = Option.some (StepOutcome.done r) →
      rustTrim choice = "5") := by
  constructor
  · intro h
    unfold menuStep
    split <;> first | rfl | (exfalso; simp_all)
  · intro r hr
    unfold menuStep at hr
    cases hlt : listTasks tz fmt db with
    | none =>
      rw [hlt] at hr
      split at hr <;> first | assumption | simp at hr
    | some rl =>
      rw [hlt] at hr
      split at hr <;> first | assumption | simp at hr

/-- Witness for C7 at the unrecognized menu line " abc ". -/
theorem menu_invalid_choice_same_state_witness :
    rustTrim " abc " ∉ (["1", "2", "3", "4", "5"] : List String) ∧
    menuStep (fun _ => LocalResult.single 0) (fun _ => "") ⟨[], 1, 0⟩ " abc " "" =
      Option.some (StepOutcome.cont ⟨⟨[], 1, 0⟩, ["Invalid choice. Please try again."], []⟩) :=
  ⟨by decide,
   (menu_invalid_choice_same_state (fun _ => LocalResult.single 0) (fun _ => "")
      ⟨[], 1, 0⟩ " abc " "").1 (by decide)⟩

/-- C2: Complete on an existing id is idempotent: both statements report a
positive rows_affected, every row with that id is completed after either
call, the second call changes nothing, and both handler calls print the
same success message. -/
theorem complete_twice_idempotent_second_success (db : TaskDb) (input : String) (v : Int)
    (hp : parseI32 (rustTrim input) = Option.some v)
    (hex : ∃ t ∈ db.rows, t.id = v) :
    0 < (dbUpdateCompleted db v).2 ∧
    0 < (dbUpdateCompleted (dbUpdateCompleted db v).1 v).2 ∧
    (∀ t ∈ (dbUpdateCompleted db v).1.rows, t.id = v → t.completed = true) ∧
    (dbUpdateCompleted (dbUpdateCompleted db v).1 v).1 = (dbUpdateCompleted db v).1 ∧
    markTaskCompleted db input =
      ⟨(dbUpdateCompleted db v).1,
       ["Task with ID " ++ toString v ++ " marked as completed."],
       [DbOp.updateCompleted v]⟩ ∧
    markTaskCompleted (markTaskCompleted db input).db input =
      ⟨(dbUpdateCompleted db v).1,
       ["Task with ID " ++ toString v ++ " marked as completed."],
       [DbOp.updateCompleted v]⟩ := by
  have h1 := dbUpdateCompleted_found_pos db v hex
  have h2 : 0 < (dbUpdateCompleted (dbUpdateCompleted db v).1 v).2 := by
    rw [dbUpdateCompleted_count_stable]; exact h1
  have hidem := dbUpdateCompleted_idem db v
  have hfst : markTaskCompleted db input =
      ⟨(dbUpdateCompleted db v).1,
       ["Task with ID " ++ toString v ++ " marked as completed."],
       [DbOp.updateCompleted v]⟩ := by
    simp only [markTaskCompleted, hp]
    rw [if_pos h1]
  have hsnd : markTaskCompleted (markTaskCompleted db input).db input =
      ⟨(dbUpdateCompleted db v).1,
       ["Task with ID " ++ toString v ++ " marked as completed."],
       [DbOp.updateCompleted v]⟩ := by
    rw [hfst]
    simp only [markTaskCompleted, hp]
    rw [if_pos h2, hidem]
  exact ⟨h1, h2, dbUpdateCompleted_sets db v, hidem, hfst, hsnd⟩

/-- Witness for C2: completing task 1 twice in a one-task store. -/
theorem complete_twice_idempotent_second_success_witness :
    parseI32 (rustTrim "1") = Option.some 1 ∧
    (∃ t ∈ (⟨[⟨1, "a", false, 0⟩], 2, 1⟩ : TaskDb).rows, t.id = 1) ∧
    0 < (dbUpdateCompleted ⟨[⟨1, "a", false, 0⟩], 2, 1⟩ 1).2 ∧
    0 < (dbUpdateCompleted (dbUpdateCompleted ⟨[⟨1, "a", false, 0⟩], 2, 1⟩ 1).1 1).2 ∧
    markTaskCompleted (markTaskCompleted ⟨[⟨1, "a", false, 0⟩], 2, 1⟩ "1").db "1" =
      ⟨(dbUpdateCompleted ⟨[⟨1, "a", false, 0⟩], 2, 1⟩ 1).1,
       ["Task with ID " ++ toString (1 : Int) ++ " marked as completed."],
       [DbOp.updateCompleted 1]⟩ :=
  ⟨by decide, ⟨⟨1, "a", false, 0⟩, by decide, rfl⟩,
   (complete_twice_idempotent_second_success ⟨[⟨1, "a", false, 0⟩], 2, 1⟩ "1" 1
      (by decide) ⟨⟨1, "a", false, 0⟩, by decide, rfl⟩).1,
   (complete_twice_idempotent_second_success ⟨[⟨1, "a", false, 0⟩], 2, 1⟩ "1" 1
      (by decide) ⟨⟨1, "a", false, 0⟩, by decide, rfl⟩).2.1,
   (complete_twice_idempotent_second_success ⟨[⟨1, "a", false, 0⟩], 2, 1⟩ "1" 1
      (by decide) ⟨⟨1, "a", false, 0⟩, by decide, rfl⟩).2.2.2.2.2⟩

/-- C8: the completed flag is monotonic under the exposed operations: the
UPDATE behind Complete sets completed unconditionally on every matched row,
and in a well-formed store no sequence of Add, List, Complete, Delete turns
a completed row with a given id back into a pending one. -/
theorem completed_flag_monotonic (db : TaskDb) (t : Task) (cmds : List Cmd)
    (hwf : WfDb db) (ht : t ∈ db.rows) (hc : t.completed = true) :
    (∀ v : Int, ∀ t' ∈ (dbUpdateCompleted db v).1.rows, t'.id = v → t'.completed = true) ∧
    (∀ t' ∈ (runCmds db cmds).rows, t'.id = t.id → t'.completed = true) := by
  refine ⟨fun v => dbUpdateCompleted_sets db v, ?_⟩
  have hca : CompletedAt db t.id := by
    intro t' ht' hid
    by_cases hEq : t' = t
    · subst hEq; exact hc
    · exact absurd hid (hwf.2.forall (fun {a b} hab => hab.symm) ht' ht hEq)
  exact runCmds_preserves cmds db t.id (hwf.1 t ht) hca

/-- Witness for C8: a completed task with id 1 stays completed across an
add, a redundant complete, a delete of another id and a list. -/
theorem completed_flag_monotonic_witness :
    WfDb ⟨[⟨1, "a", true, 0⟩], 2, 1⟩ ∧
    (⟨1, "a", true, 0⟩ : Task) ∈ (⟨[⟨1, "a", true, 0⟩], 2, 1⟩ : TaskDb).rows ∧
    (∀ t' ∈ (runCmds ⟨[⟨1, "a", true, 0⟩], 2, 1⟩
        [Cmd.add " b ", Cmd.complete "1", Cmd.list, Cmd.delete "9"]).rows,
      t'.id = 1 → t'.completed = true) :=
  ⟨⟨by decide, by decide⟩, by decide,
   (completed_flag_monotonic ⟨[⟨1, "a", true, 0⟩], 2, 1⟩ ⟨1, "a", true, 0⟩
      [Cmd.add " b ", Cmd.complete "1", Cmd.list, Cmd.delete "9"]
      ⟨by decide, by decide⟩ (by decide) rfl).2⟩

end TaskCli
